import Mathlib

/-!
Shallow embedding of the acquisition-and-correction pipeline of
NanoVNA-Saver (src/NanoVNASaver): the calibration engine
(`Calibration.py`), the sweep plan and acquisition worker
(`SweepWorker.py`) and the Touchstone codec (`Touchstone.py`).

Numbers: Python floats/complex are modelled by exact rationals
(`Rat`) and pairs of rationals (`Cplx`).  Rounding of IEEE floats is
not modelled; all claims under study are algebraic or structural.
Fallible Python code (exceptions) is modelled with `Except`.
-/

deriving instance DecidableEq for Except

/-- Complex numbers with rational components, the model of Python
`complex` / `np.complex` values. -/
structure Cplx where
  re : Rat
  im : Rat
deriving DecidableEq, Repr

namespace Cplx

def zero : Cplx := ⟨0, 0⟩

def one : Cplx := ⟨1, 0⟩

def add (x y : Cplx) : Cplx := ⟨x.re + y.re, x.im + y.im⟩

def sub (x y : Cplx) : Cplx := ⟨x.re - y.re, x.im - y.im⟩

def neg (x : Cplx) : Cplx := ⟨-x.re, -x.im⟩

def mul (x y : Cplx) : Cplx :=
  ⟨x.re * y.re - x.im * y.im, x.re * y.im + x.im * y.re⟩

/-- Squared modulus `re² + im²`. -/
def normSq (x : Cplx) : Rat := x.re * x.re + x.im * x.im

/-- Complex division `x / y` (the value Python computes when `y ≠ 0`;
callers model Python's `ZeroDivisionError` by checking `y = zero`
before dividing). -/
def div (x y : Cplx) : Cplx :=
  ⟨(x.re * y.re + x.im * y.im) / normSq y,
   (x.im * y.re - x.re * y.im) / normSq y⟩

instance : Add Cplx := ⟨add⟩
instance : Sub Cplx := ⟨sub⟩
instance : Neg Cplx := ⟨neg⟩
instance : Mul Cplx := ⟨mul⟩
instance : Div Cplx := ⟨div⟩

end Cplx

/-- `Datapoint` namedtuple (`freq re im`) shared by `Calibration.py`,
`RFTools.py` and `Touchstone.py`.  Frequencies are rational to cover
both the integer device frequencies and the scaled Touchstone
frequencies. -/
structure Datapoint where
  freq : Rat
  re : Rat
  im : Rat
deriving DecidableEq, Repr

/-- Errors of the calibration engine.  `incompleteStandards` models
`calculateCorrections` returning `False` when `isValid1Port()` fails;
`divisionError` models the caught `ZeroDivisionError`; `indexError`
models an uncaught `IndexError` from indexing a too-short standard
list; `parametricUnsupported` marks the non-ideal standard models,
whose transcendental arithmetic (complex exponentials, pi) has no
exact rational embedding — every claim under study constrains the
standards to the ideal models, so this branch is never exercised. -/
inductive CalError where
  | incompleteStandards
  | divisionError
  | indexError
  | parametricUnsupported
deriving DecidableEq, Repr

/-- State of `Calibration` (class `Calibration` in `Calibration.py`):
the five measured standard sweeps, the computed error terms, the
ideal/parametric selector flags and the `isCalculated` flag.  The
two-port terms are `Option Cplx` because Python preallocates those
lists with junk placeholders (`[np.complex] * n`) that are only
overwritten when `isValid2Port()` holds. -/
structure Calibration where
  s11short : List Datapoint := []
  s11open : List Datapoint := []
  s11load : List Datapoint := []
  s21through : List Datapoint := []
  s21isolation : List Datapoint := []
  frequencies : List Rat := []
  e00 : List Cplx := []
  e11 : List Cplx := []
  deltaE : List Cplx := []
  e30 : List (Option Cplx) := []
  e10e32 : List (Option Cplx) := []
  useIdealShort : Bool := true
  useIdealOpen : Bool := true
  useIdealLoad : Bool := true
  isCalculated : Bool := false
deriving DecidableEq, Repr

/-- `Calibration.shortIdeal = np.complex(-1, 0)`. -/
def shortIdeal : Cplx := ⟨-1, 0⟩

/-- `Calibration.openIdeal = np.complex(1, 0)`. -/
def openIdeal : Cplx := ⟨1, 0⟩

/-- `Calibration.loadIdeal = np.complex(0, 0)`. -/
def loadIdeal : Cplx := ⟨0, 0⟩

namespace Calibration

/-- `Calibration.isValid1Port`. -/
def isValid1Port (c : Calibration) : Bool :=
  decide (0 < c.s11short.length) && decide (0 < c.s11open.length) &&
    decide (0 < c.s11load.length)

/-- `Calibration.isValid2Port`. -/
def isValid2Port (c : Calibration) : Bool :=
  decide (0 < c.s21through.length) && decide (0 < c.s21isolation.length) &&
    c.isValid1Port

/-- Modeled reflection coefficient `g1` of the short standard at
frequency `f`.  The ideal branch of `calculateCorrections`; the
parametric branch (polynomial inductance plus delay rotation) is
transcendental and out of the claims' scope. -/
def modeledShortG (c : Calibration) (_f : Rat) : Except CalError Cplx :=
  if c.useIdealShort then .ok shortIdeal else .error .parametricUnsupported

/-- Modeled reflection coefficient `g2` of the open standard at `f`. -/
def modeledOpenG (c : Calibration) (_f : Rat) : Except CalError Cplx :=
  if c.useIdealOpen then .ok openIdeal else .error .parametricUnsupported

/-- Modeled reflection coefficient `g3` of the load standard at `f`. -/
def modeledLoadG (c : Calibration) (_f : Rat) : Except CalError Cplx :=
  if c.useIdealLoad then .ok loadIdeal else .error .parametricUnsupported

/-- One iteration of the error-term arithmetic in
`calculateCorrections` (lines 529-532): the common denominator and
`e00[i]`, `e11[i]`, `deltaE[i]`.  A zero denominator is Python's
`ZeroDivisionError`, caught by the surrounding `try`. -/
def calcOne (g1 g2 g3 gm1 gm2 gm3 : Cplx) :
    Except CalError (Cplx × Cplx × Cplx) :=
  let denom := g1*(g2-g3)*gm1 + g2*g3*gm2 - g2*g3*gm3 - (g2*gm2-g3*gm3)*g1
  if denom = Cplx.zero then .error .divisionError
  else
    .ok (-(((g2*gm3 - g3*gm3)*g1*gm2 -
            (g2*g3*gm2 - g2*g3*gm3 - (g3*gm2 - g2*gm3)*g1)*gm1) / denom),
         ((g2-g3)*gm1 - g1*(gm2-gm3) + g3*gm2 - g2*gm3) / denom,
         -(((g1*(gm2-gm3) - g2*gm2 + g3*gm3)*gm1 +
            (g2*gm3 - g3*gm3)*gm2) / denom))

/-- Result of one loop iteration of `calculateCorrections`: the
reference frequency and the five per-index error terms. -/
structure Row where
  freq : Rat
  rE00 : Cplx
  rE11 : Cplx
  rDeltaE : Cplx
  rE30 : Option Cplx
  rE10e32 : Option Cplx
deriving DecidableEq, Repr

/-- Loop body of `calculateCorrections` for index `i`: fetch the
measured standards, derive the modeled coefficients, compute the
one-port terms, and the two-port terms when `isValid2Port()`. -/
def calcRow (c : Calibration) (i : Nat) : Except CalError Row :=
  match c.s11short[i]?, c.s11open[i]?, c.s11load[i]? with
  | some sh, some op, some lo =>
    let f := sh.freq
    match c.modeledShortG f, c.modeledOpenG f, c.modeledLoadG f with
    | .ok g1, .ok g2, .ok g3 =>
      let gm1 : Cplx := ⟨sh.re, sh.im⟩
      let gm2 : Cplx := ⟨op.re, op.im⟩
      let gm3 : Cplx := ⟨lo.re, lo.im⟩
      match calcOne g1 g2 g3 gm1 gm2 gm3 with
      | .error e => .error e
      | .ok (a, b, d) =>
        if c.isValid2Port then
          match c.s21through[i]?, c.s21isolation[i]? with
          | some th, some iso =>
            let e30i : Cplx := ⟨iso.re, iso.im⟩
            let s21m : Cplx := ⟨th.re, th.im⟩
            .ok ⟨f, a, b, d, some e30i,
                 some ((s21m - e30i) * (Cplx.one - b * b))⟩
          | _, _ => .error .indexError
        else .ok ⟨f, a, b, d, none, none⟩
    | .error e, _, _ => .error e
    | _, .error e, _ => .error e
    | _, _, .error e => .error e
  | _, _, _ => .error .indexError

/-- Effectful map over a list, propagating the first error: the model
of the Python `for` loop accumulating per-index results. -/
def exceptMap (f : Nat → Except CalError Row) : List Nat → Except CalError (List Row)
  | [] => .ok []
  | a :: l =>
    match f a with
    | .error e => .error e
    | .ok r =>
      match exceptMap f l with
      | .error e => .error e
      | .ok rs => .ok (r :: rs)

/-- `Calibration.calculateCorrections` (lines 481-544): requires
one-port validity, iterates the frequency axis of `s11short`, fills
the term arrays and sets `isCalculated`. -/
def calculateCorrections (c : Calibration) : Except CalError Calibration :=
  if c.isValid1Port then
    match exceptMap (calcRow c) (List.range c.s11short.length) with
    | .error e => .error e
    | .ok rows =>
      .ok { c with
            frequencies := rows.map Row.freq
            e00 := rows.map Row.rE00
            e11 := rows.map Row.rE11
            deltaE := rows.map Row.rDeltaE
            e30 := rows.map Row.rE30
            e10e32 := rows.map Row.rE10e32
            isCalculated := true }
  else .error .incompleteStandards

/-- Errors of `correct11`: indexing an absent error term
(`IndexError`) or complex division by zero (`ZeroDivisionError`). -/
inductive CorrErr where
  | indexError
  | zeroDivision
deriving DecidableEq, Repr

/-- The linear nearest-neighbor scan of `correct11`/`correct21`:
running index `i`, best index `best` and best distance `dist`
(initially `10^10`); a strictly smaller distance updates, ties keep
the earlier index. -/
def nearestScan (freq : Rat) : List Datapoint → Nat → Nat → Rat → Nat
  | [], _, best, _ => best
  | p :: rest, i, best, dist =>
    if |p.freq - freq| < dist then nearestScan freq rest (i+1) i |p.freq - freq|
    else nearestScan freq rest (i+1) best dist

/-- Index of the stored standard whose frequency is nearest `freq`. -/
def nearestIndex (pts : List Datapoint) (freq : Rat) : Nat :=
  nearestScan freq pts 0 0 (10^10)

/-- `Calibration.correct11` (lines 546-557): nearest-index lookup over
the `s11short` axis, then `s11 = (s11m - e00[idx]) / (s11m*e11[idx] -
deltaE[idx])`.  Note the source applies the terms unconditionally: it
never consults `isCalculated`. -/
def correct11 (c : Calibration) (re im freq : Rat) : Except CorrErr (Rat × Rat) :=
  let s11m : Cplx := ⟨re, im⟩
  let index := nearestIndex c.s11short freq
  match c.e00[index]?, c.e11[index]?, c.deltaE[index]? with
  | some a, some b, some d =>
    let denom := s11m * b - d
    if denom = Cplx.zero then .error .zeroDivision
    else
      let s11 := (s11m - a) / denom
      .ok (s11.re, s11.im)
  | _, _, _ => .error .indexError

end Calibration

/-! ## Sweep plan (`SweepWorker.py`, class `Sweep`) -/

/-- Exceptions the `Sweep` constructor can raise: `ZeroDivisionError`
from `stepsize()` when `points*sweeps - 1 = 0`, and the `ValueError`
of `check()` for illegal sweep settings. -/
inductive SweepErr where
  | zeroDivisionError
  | valueError
deriving DecidableEq, Repr

/-- A constructed `Sweep`: requested range, per-segment point count,
segment count, and the derived `span` and `step`. -/
structure Sweep where
  start : Int
  endF : Int
  points : Int
  sweeps : Int
  span : Int
  step : Int
deriving DecidableEq, Repr

/-- `Sweep.__init__`: computes `span`, then `step = stepsize()` (which
divides by `points*sweeps - 1` — Python raises `ZeroDivisionError`
when that is zero, before `check()` ever runs), then runs `check()`.
`int(span / d)` truncates toward zero, i.e. `Int.tdiv`. -/
def mkSweep (start endF points sweeps : Int) : Except SweepErr Sweep :=
  let span := endF - start
  let d := points * sweeps - 1
  if d = 0 then .error .zeroDivisionError
  else
    let step := Int.tdiv span d
    if sweeps > 0 ∧ points > 0 ∧ start > 0 ∧ endF > 0 ∧ step ≥ 1 then
      .ok ⟨start, endF, points, sweeps, span, step⟩
    else .error .valueError

/-- `Sweep.get_index_range`: the sub-range swept by segment `index`. -/
def getIndexRange (s : Sweep) (index : Int) : Int × Int :=
  let st := s.start + index * s.points * s.step
  (st, st + (s.points - 1) * s.step)

/-! ## Trimmed averaging (`SweepWorker.py`, `truncate` and
`SweepWorker.readAveragedSegment`) -/

/-- Sum of a list of complex samples. -/
def csum (l : List Cplx) : Cplx := l.foldl (fun a b => a + b) Cplx.zero

/-- `np.average` of a list of complex samples (componentwise mean). -/
def cmean (l : List Cplx) : Cplx :=
  ⟨(csum l).re / (l.length : Rat), (csum l).im / (l.length : Rat)⟩

/-- Squared distance of sample `v` from center `a` — the comparison
key of `sorted(valueset, key=lambda v: abs(avg - complex(*v)))`.
Python compares true moduli; squaring is strictly monotone on
nonnegative reals, so the induced order is the same and the sorted
permutation is identical (up to float rounding, which is not
modelled). -/
def distKey (a v : Cplx) : Rat := Cplx.normSq (a - v)

/-- Stable insertion into a list sorted by `key` (a new element goes
before the first element with a key not smaller than its own, exactly
the relative order Python's stable `sorted` produces). -/
def insertSorted (key : Cplx → Rat) (x : Cplx) : List Cplx → List Cplx
  | [] => [x]
  | y :: ys =>
    if key x ≤ key y then x :: y :: ys else y :: insertSorted key x ys

/-- Stable sort by `key`, the model of Python `sorted(..., key=...)`. -/
def sortByKey (key : Cplx → Rat) : List Cplx → List Cplx
  | [] => []
  | x :: xs => insertSorted key x (sortByKey key xs)

/-- `np.swapaxes(values, 0, 1)` on a rectangular list-of-rows: row `j`
of the result collects component `j` of every input row.  The column
count is the length of the first row (numpy requires rectangular
input; the `getD` default is never reached on rectangular input). -/
def swapaxes01 (m : List (List Cplx)) : List (List Cplx) :=
  (List.range (m.headD []).length).map
    (fun j => m.map (fun row => row.getD j Cplx.zero))

/-- `truncate(values, count)` (`SweepWorker.py` lines 34-48): drop the
`count` samples most distant from the per-bin mean.  `keep =
len(values) - count`; an illegal truncate (`count < 1` or `keep < 1`)
returns the input unchanged.  Otherwise each frequency-bin column is
sorted by distance from its mean and cut to `keep` entries. -/
def truncate (values : List (List Cplx)) (count : Int) : List (List Cplx) :=
  let keep : Int := (values.length : Int) - count
  if count < 1 ∨ keep < 1 then values
  else
    swapaxes01 ((swapaxes01 values).map
      (fun valueset =>
        (sortByKey (distKey (cmean valueset)) valueset).take keep.toNat))

/-- `np.average(vals, 0)`: the per-bin (columnwise) mean of a
rectangular list of repeated sweeps. -/
def averageColumns (vals : List (List Cplx)) : List Cplx :=
  (swapaxes01 vals).map cmean

/-- The averaging step of `SweepWorker.readAveragedSegment` (lines
297-306): truncate the collected repeats, then average per bin. -/
def readAveragedValues (vals : List (List Cplx)) (truncates : Int) : List Cplx :=
  averageColumns (truncate vals truncates)

/-- The samples of frequency bin `j` across the repeated sweeps. -/
def colAt (vals : List (List Cplx)) (j : Nat) : List Cplx :=
  vals.map (fun row => row.getD j Cplx.zero)

/-! ## Touchstone codec (`Touchstone.py`)

Tokens of the options line are modelled as `List Char` (already
lowercased, as `line[1:].lower().split()` produces them); data lines
are modelled post-lexing as a frequency and a list of rational
values — decimal-literal lexing itself is not at issue in any claim. -/

/-- Exceptions of the Touchstone parser.  The structural `TypeError`s
of `loads` are `notAscending`, `oddValues` and `inconsistentPairs`;
`maPolarTypeError` is the `TypeError` raised by `cmath.polar(x, y)`
(called with two arguments) in the `ma` branch; `stopIteration` is an
exhausted iterator (`next` on the parameter-slot iterator or on the
options tokens); the rest belong to `Options.parse`. -/
inductive TsErr where
  | notOptionLine
  | illegalOption
  | stopIteration
  | valueError
  | notAscending
  | oddValues
  | inconsistentPairs
  | maPolarTypeError
deriving DecidableEq, Repr

/-- The structural consistency failures of `loads`. -/
def TsErr.isStructural : TsErr → Bool
  | .notAscending => true
  | .oddValues => true
  | .inconsistentPairs => true
  | _ => false

/-- Value formats of the options line (`ma`, `db`, `ri`). -/
inductive TsFormat where
  | ma
  | db
  | ri
deriving DecidableEq, Repr

/-- Parsed option state (`Options.__init__` defaults: GHz, parameter
`s`, format `ma`, reference resistance 50). -/
structure TsOptions where
  factor : Int := 10 ^ 9
  parameter : List Char := ['s']
  fmt : TsFormat := .ma
  resistance : Int := 50
deriving DecidableEq, Repr

/-- `Options.UNIT_TO_FACTOR` lookup on a token. -/
def unitFactor (p : List Char) : Option Int :=
  if p = ['g','h','z'] then some (10 ^ 9)
  else if p = ['m','h','z'] then some (10 ^ 6)
  else if p = ['k','h','z'] then some (10 ^ 3)
  else if p = ['h','z'] then some 1
  else none

/-- Format tokens `ma` / `db` / `ri`. -/
def fmtOf (p : List Char) : Option TsFormat :=
  if p = ['m','a'] then some .ma
  else if p = ['d','b'] then some .db
  else if p = ['r','i'] then some .ri
  else none

/-- Whether `p` begins `s`. -/
def leadsChars : List Char → List Char → Bool
  | [], _ => true
  | _ :: _, [] => false
  | a :: as, b :: bs => a = b && leadsChars as bs

/-- Whether `p` occurs as a contiguous substring of `s` — the meaning
of Python's `p in "syzgh"` on strings.  Note this accepts multi-letter
runs such as `gh`, not just the five single letters. -/
def isInfixChars (p : List Char) : List Char → Bool
  | [] => leadsChars p []
  | s@(_ :: rest) => leadsChars p s || isInfixChars p rest

/-- The five parameter-type letters, as the string the source tests
substring membership against. -/
def syzghChars : List Char := ['s','y','z','g','h']

/-- Python `int()` on a token (digits with optional leading minus; the
full `int()` accepts more spellings, not exercised by the claims). -/
def toNatDigits (acc : Nat) : List Char → Option Nat
  | [] => some acc
  | c :: cs =>
    if c.isDigit then toNatDigits (acc * 10 + (c.toNat - 48)) cs else none

/-- Integer value of a token, `none` for Python's `ValueError`. -/
def parseIntTok : List Char → Option Int
  | [] => none
  | '-' :: cs =>
    if cs.isEmpty then none
    else (toNatDigits 0 cs).map (fun n => -(n : Int))
  | t => (toNatDigits 0 t).map (fun n => (n : Int))

/-- The four seen-token flags of `Options.parse`.  `presist` is
declared and tested by the source but never assigned `True`. -/
structure OptFlags where
  pfact : Bool := false
  pparam : Bool := false
  pformat : Bool := false
  presist : Bool := false
deriving DecidableEq, Repr

/-- The token loop of `Options.parse` (lines 45-60), transcribed
branch for branch.  In the `r` branch the source consumes the next
token and stores `int()` of it but — faithfully to the source — never
sets `presist`, so a later duplicate `r <value>` is accepted again. -/
def parseOptTokens : List (List Char) → TsOptions → OptFlags → Except TsErr TsOptions
  | [], opts, _ => .ok opts
  | p :: rest, opts, fl =>
    if (unitFactor p).isSome ∧ fl.pfact = false then
      parseOptTokens rest { opts with factor := (unitFactor p).getD 1 }
        { fl with pfact := true }
    else if isInfixChars p syzghChars ∧ fl.pparam = false then
      parseOptTokens rest { opts with parameter := p } { fl with pparam := true }
    else if (fmtOf p).isSome ∧ fl.pformat = false then
      parseOptTokens rest { opts with fmt := (fmtOf p).getD .ma }
        { fl with pformat := true }
    else if p = ['r'] ∧ fl.presist = false then
      match rest with
      | [] => .error .stopIteration
      | v :: rest2 =>
        match parseIntTok v with
        | none => .error .valueError
        | some z => parseOptTokens rest2 { opts with resistance := z } fl
    else .error .illegalOption

/-- `Options.parse`: reject lines not starting with `#`, then run the
token loop on the defaults with all flags cleared. -/
def parseOptionsLine (startsWithHash : Bool) (toks : List (List Char)) :
    Except TsErr TsOptions :=
  if startsWithHash then parseOptTokens toks {} {} else .error .notOptionLine

/-- A decoded Touchstone sample (scaled frequency, real, imaginary). -/
structure TsDp where
  freq : Rat
  re : Rat
  im : Rat
deriving DecidableEq, Repr

/-- The four parameter slots `sdata[0..3]` (S11, S21, S12, S22). -/
structure SData where
  s11 : List TsDp := []
  s21 : List TsDp := []
  s12 : List TsDp := []
  s22 : List TsDp := []
deriving DecidableEq, Repr

/-- `next(data_list).append(...)`: append to the `k`-th parameter
slot; a fifth `next` on the four-slot iterator raises
`StopIteration` (`none`). -/
def slotAppend (sd : SData) (k : Nat) (dp : TsDp) : Option SData :=
  match k with
  | 0 => some { sd with s11 := sd.s11 ++ [dp] }
  | 1 => some { sd with s21 := sd.s21 ++ [dp] }
  | 2 => some { sd with s12 := sd.s12 ++ [dp] }
  | 3 => some { sd with s22 := sd.s22 ++ [dp] }
  | _ => none

/-- The `ri` decoding loop: consume the values two at a time, storing
pair `k` directly as `(real, imaginary)` in slot `k`.  An odd
leftover value makes `float(next(vals))` raise `StopIteration` (the
parity check normally rules this out). -/
def appendRI (freq : Rat) : List Rat → Nat → SData → Except TsErr SData
  | [], _, sd => .ok sd
  | v1 :: v2 :: rest, k, sd =>
    match slotAppend sd k ⟨freq, v1, v2⟩ with
    | some sd2 => appendRI freq rest (k + 1) sd2
    | none => .error .stopIteration
  | [_], _, _ => .error .stopIteration

/-- Parser state threaded through the data-line loop of `loads`:
`prev_freq`, `prev_len` and the accumulated `sdata`. -/
structure LoadState where
  prevFreq : Rat := 0
  prevLen : Nat := 0
  sdata : SData := {}
deriving DecidableEq, Repr

/-- One data line of `loads` (lines 132-163).  In source order: scale
the frequency and require it strictly above the previous one; default
`prev_len` to this line's count when still zero; reject odd counts,
then counts different from `prev_len`; then decode values by format.
The `ma` branch calls `cmath.polar` with two arguments, which raises
`TypeError` on the first pair; for `db` no branch exists at all, so
the values are dropped and nothing is appended. -/
def processLine (fmt : TsFormat) (factor : Rat) (st : LoadState)
    (line : Rat × List Rat) : Except TsErr LoadState :=
  let freq := line.1 * factor
  if freq ≤ st.prevFreq then .error .notAscending
  else
    let dataLen := line.2.length
    let plen := if st.prevLen = 0 then dataLen else st.prevLen
    if dataLen % 2 = 1 then .error .oddValues
    else if dataLen ≠ plen then .error .inconsistentPairs
    else
      match fmt with
      | .ri =>
        match appendRI freq line.2 0 st.sdata with
        | .error e => .error e
        | .ok sd => .ok ⟨freq, plen, sd⟩
      | .ma =>
        if line.2.isEmpty then .ok ⟨freq, plen, st.sdata⟩
        else .error .maPolarTypeError
      | .db => .ok ⟨freq, plen, st.sdata⟩

/-- The data-line loop of `loads` over the already-lexed lines. -/
def loadsAux (fmt : TsFormat) (factor : Rat) (st : LoadState) :
    List (Rat × List Rat) → Except TsErr LoadState
  | [] => .ok st
  | line :: rest =>
    match processLine fmt factor st line with
    | .error e => .error e
    | .ok st2 => loadsAux fmt factor st2 rest

/-- `Touchstone.loads` after the options line: parse every data line
starting from `prev_freq = 0.0`, `prev_len = 0` and empty slots. -/
def loads (fmt : TsFormat) (factor : Rat) (lines : List (Rat × List Rat)) :
    Except TsErr LoadState :=
  loadsAux fmt factor {} lines

/-- Spec-side predicate: the scaled frequencies are strictly ascending
starting above `prev` (the parser starts from `prev_freq = 0.0`). -/
def ascendingFromB (prev : Rat) : List Rat → Bool
  | [] => true
  | f :: rest => decide (prev < f) && ascendingFromB f rest

/-- Spec-side predicate on the per-line value counts: every count is
even, and every count matches the reference count, where the
reference is the first nonzero count seen (`ref = 0` means no
reference yet). -/
def countsOkB (ref : Nat) : List Nat → Bool
  | [] => true
  | n :: rest =>
    decide (n % 2 = 0) && (decide (ref = 0) || decide (n = ref)) &&
      countsOkB (if ref = 0 then n else ref) rest

/-- A line list free of the three structural violations of `loads`. -/
def structuralViolationFree (factor : Rat) (lines : List (Rat × List Rat)) : Bool :=
  ascendingFromB 0 (lines.map (fun l => l.1 * factor)) &&
    countsOkB 0 (lines.map (fun l => l.2.length))

/-! ## Device read with validation and retry
(`SweepWorker.readData`, lines 326-368) -/

/-- The fatal device-IO error (`IOError`) raised after ten failed
read attempts. -/
inductive DevErr where
  | ioError
deriving DecidableEq, Repr

/-- Whether one read attempt passes validation: with `validate` on,
every returned pair must have both components of absolute value at
most 9.5.  The model takes the device's values as already-split
rational pairs (malformed numerals, also retried by the source, are
not exercised by the claim). -/
def attemptOk (validate : Bool) (vals : List (Rat × Rat)) : Bool :=
  !(validate && vals.any (fun p => decide (|p.1| > 19/2) || decide (|p.2| > 19/2)))

/-- The retry loop of `readData`: `count` starts at 0 and increments
after each failed attempt; when `count` reaches 10 the `IOError` is
raised.  `remaining` is `10 - count`, the structurally decreasing
fuel; `attempt` numbers the reads so a deterministic device model can
answer differently per attempt. -/
def readDataGo (device : Nat → List (Rat × Rat)) (validate : Bool) :
    Nat → Nat → Except DevErr (List (Rat × Rat))
  | attempt, remaining + 1 =>
    let vals := device attempt
    if attemptOk validate vals then .ok vals
    else if remaining = 0 then .error .ioError
    else readDataGo device validate (attempt + 1) remaining
  | _, 0 => .error .ioError

/-- `SweepWorker.readData` against a device model: up to ten read
attempts, returning the first attempt that passes validation. -/
def readData (device : Nat → List (Rat × Rat)) (validate : Bool) :
    Except DevErr (List (Rat × Rat)) :=
  readDataGo device validate 0 10

/-! ## `SweepWorker.run` prelude (lines 119-143) -/

/-- Control-flow outcome of the head of `run()`:
`silentReturn` — the `not self.vna.connected()` branch: `running` is
set back to `False` and the method returns, emitting no signal and
touching no device state;
`parseFailure` — `Sweep` construction raised `ValueError`: the error
message is set and `sweepError` is emitted;
`proceed` — a valid sweep was built and the segment loop is entered
(the first point at which the instrument is commanded). -/
inductive RunPrelude where
  | silentReturn
  | parseFailure
  | proceed (s : Sweep)
deriving DecidableEq, Repr

/-- The connected-check and sweep-construction head of
`SweepWorker.run`.  `sweepCtor` is the outcome of building the
`Sweep` from the user's input fields. -/
def runPrelude (connected : Bool) (sweepCtor : Except SweepErr Sweep) : RunPrelude :=
  if !connected then .silentReturn
  else
    match sweepCtor with
    | .error _ => .parseFailure
    | .ok s => .proceed s

/-- Whether the prelude emits the `sweepError` signal. -/
def emitsSweepError : RunPrelude → Bool
  | .parseFailure => true
  | _ => false

/-- Whether the prelude goes on to command the instrument. -/
def touchesDevice : RunPrelude → Bool
  | .proceed _ => true
  | _ => false

/-! ## Concrete states used by witnesses and counterexamples -/

/-- A fresh `Calibration()`: empty standards, empty terms,
`isCalculated = False`. -/
def emptyCal : Calibration := {}

/-- A one-point calibration measured exactly at the ideal standard
responses (short `-1`, open `+1`, load `0`) at 100 kHz. -/
def idealCal : Calibration :=
  { s11short := [⟨100000, -1, 0⟩]
    s11open := [⟨100000, 1, 0⟩]
    s11load := [⟨100000, 0, 0⟩] }

/-- The state `calculateCorrections` produces from `idealCal`. -/
def idealCalDone : Calibration :=
  { idealCal with
    frequencies := [100000]
    e00 := [Cplx.zero]
    e11 := [Cplx.zero]
    deltaE := [⟨-1, 0⟩]
    e30 := [none]
    e10e32 := [none]
    isCalculated := true }

/-- Five repeated reads of a single frequency bin, four samples at
`1 + 0i` and one extreme outlier at `100 + 0i`. -/
def outlierVals : List (List Cplx) :=
  [[⟨1, 0⟩], [⟨1, 0⟩], [⟨1, 0⟩], [⟨1, 0⟩], [⟨100, 0⟩]]

/-- A device that fails validation (value 10 exceeds 9.5) on its first nine
attempts and answers `(1/2, 0)` on the tenth. -/
def flaky9Device (k : Nat) : List (Rat × Rat) :=
  if k < 9 then [(10, 0)] else [(1/2, 0)]

/-- A device whose reads always fail validation. -/
def alwaysBadDevice (_k : Nat) : List (Rat × Rat) := [(10, 0)]

/-- The sweep `Sweep(1, 12, 2, 2)`: span 11, step `int(11/3) = 3`. -/
def demoSweep : Sweep := ⟨1, 12, 2, 2, 11, 3⟩

/-!
# Theorems

Claim-level theorems, their witnesses and counterexamples, preceded
by the helper lemmas they rely on.
-/

/-- C10: constructing a `Sweep` with `points = 1` and `sweeps = 1`
raises `ZeroDivisionError` inside `stepsize()` — for every `start`
and `end`, before the invariant check can raise the documented
`ValueError`. -/
theorem sweep_points1_sweeps1_zero_division (start endF : Int) :
    mkSweep start endF 1 1 = .error .zeroDivisionError := rfl

/-- C3 counterexample: `Sweep(1, 12, 2, 2)` constructs successfully
(all fields positive, step `3 ≥ 1`), but the last segment's end is
`10`, not the plan's `end = 12`: the claimed exact coverage of
`[start, end]` fails whenever `points*sweeps - 1` does not divide the
span. -/
theorem sweep_coverage_counterexample :
    mkSweep 1 12 2 2 = .ok demoSweep ∧
    (getIndexRange demoSweep 1).2 = 10 ∧ demoSweep.endF = 12 ∧
    (10 : Int) ≠ 12 := by decide

/-- C3 amended: for every successfully constructed sweep the segment
ranges are contiguous — each next segment starts one step after the
previous segment's end and the first segment starts at the plan's
start — and the last segment ends at
`start + (points*sweeps - 1)*step`, which equals the plan's `end`
only when `points*sweeps - 1` divides the span exactly. -/
theorem sweep_segment_ranges_contiguous (a b p w : Int) (s : Sweep)
    (_hs : mkSweep a b p w = .ok s) (i : Int) :
    (getIndexRange s (i + 1)).1 = (getIndexRange s i).2 + s.step ∧
    (getIndexRange s 0).1 = s.start ∧
    (getIndexRange s (s.sweeps - 1)).2 =
      s.start + (s.points * s.sweeps - 1) * s.step := by
  refine ⟨?_, ?_, ?_⟩ <;> simp [getIndexRange] <;> ring

/-- Witness for the amended C3 on the concrete sweep
`Sweep(1, 12, 2, 2)` at segment index 0. -/
theorem sweep_segment_ranges_contiguous_witness :
    mkSweep 1 12 2 2 = .ok demoSweep ∧
    ((getIndexRange demoSweep (0 + 1)).1 =
        (getIndexRange demoSweep 0).2 + demoSweep.step ∧
      (getIndexRange demoSweep 0).1 = demoSweep.start ∧
      (getIndexRange demoSweep (demoSweep.sweeps - 1)).2 =
        demoSweep.start +
          (demoSweep.points * demoSweep.sweeps - 1) * demoSweep.step) :=
  ⟨by decide,
   sweep_segment_ranges_contiguous 1 12 2 2 demoSweep (by decide) 0⟩

/-- C2 counterexample: on a fresh `Calibration()` — `isCalculated`
false and no one-port error terms computed — `correct11` does not
return the raw sample unchanged: it fails with an `IndexError`
(`self.e00[index]` on an empty list).  The unchanged-return guard
the claim describes lives in the caller,
`SweepWorker.applyCalibration`, not in `correct11`. -/
theorem correct11_unguarded_counterexample :
    emptyCal.isCalculated = false ∧ emptyCal.e00 = [] ∧
    Calibration.correct11 emptyCal (1/2) 0 100 ≠ .ok (1/2, 0) ∧
    Calibration.correct11 emptyCal (1/2) 0 100 = .error .indexError := by
  decide

/-- C2 amended: whenever no one-port error terms have been computed
(`e00` empty), `correct11` fails with an `IndexError` for every
sample, rather than returning it unchanged; `correct11` never
consults `isCalculated` — the guard returning raw data when
`isCalculated` is false is in `SweepWorker.applyCalibration`. -/
theorem correct11_missing_terms_error (c : Calibration) (h : c.e00 = [])
    (re im freq : Rat) :
    Calibration.correct11 c re im freq = .error .indexError := by
  simp [Calibration.correct11, h]

/-- Witness: the amended C2 applied to the fresh calibration. -/
theorem correct11_missing_terms_error_witness :
    emptyCal.e00 = [] ∧
    Calibration.correct11 emptyCal (1/3) (1/7) 200 = .error .indexError :=
  ⟨rfl, correct11_missing_terms_error emptyCal rfl (1/3) (1/7) 200⟩

/-- C9 counterexample: with the instrument session not connected,
`run()` takes the silent-return branch: no `sweepError` signal is
emitted (contradicting the claimed discrete error report) and no
device interaction occurs. -/
theorem run_not_connected_silent_counterexample :
    runPrelude false (.ok demoSweep) = .silentReturn ∧
    emitsSweepError .silentReturn = false ∧
    touchesDevice .silentReturn = false := by decide

/-- C9 amended: when `run()` is invoked while the session reports not
connected, it returns immediately without any device interaction —
but silently: no error signal is emitted and no error message is set
(only a debug log line); there is no `NotConnected` error value. -/
theorem run_not_connected_silent (ctor : Except SweepErr Sweep) :
    runPrelude false ctor = .silentReturn ∧
    emitsSweepError (runPrelude false ctor) = false ∧
    touchesDevice (runPrelude false ctor) = false := by
  simp [runPrelude, emitsSweepError, touchesDevice]

/-- C7: the failing input `# r 50 r 75` is accepted — the duplicate
`r <value>` does not fail because the source never sets `presist`,
and the resistance is silently overwritten to 75; likewise the
unrecognized token `gh` is accepted as a parameter type because
`p in "syzgh"` is a substring test.  Both contradict the claim (and
the evident intent of the dead `presist` flag), so the claim is
right and the code wrong. -/
theorem options_duplicate_r_accepted :
    parseOptionsLine true [['r'], ['5','0'], ['r'], ['7','5']] =
      .ok { resistance := 75 } ∧
    parseOptionsLine true [['g','h']] = .ok { parameter := ['g','h'] } := by
  decide

/-- C5: value decoding diverges from the claim for two of the three
formats.  Under `ri` a pair is indeed stored directly and pairs map
to slots S11, S21, S12, S22 in order; but under `ma` the first data
pair raises `TypeError` (`cmath.polar` is called with two arguments —
the conversion direction is reversed, `cmath.rect` was intended), and
under `db` no decoding branch exists at all, so every value is
silently dropped and nothing is appended. -/
theorem touchstone_value_decoding_bug :
    loads .ma 1 [(1, [1/2, 1/3])] = .error .maPolarTypeError ∧
    loads .db 1 [(1, [1/2, 1/3])] = .ok ⟨1, 2, {}⟩ ∧
    loads .ri 1 [(1, [1/2, 1/3, 1/4, 1/5])] =
      .ok ⟨1, 4, { s11 := [⟨1, 1/2, 1/3⟩], s21 := [⟨1, 1/4, 1/5⟩] }⟩ := by
  refine ⟨?_, ?_, ?_⟩ <;>
    norm_num [loads, loadsAux, processLine, appendRI, slotAppend]

/-- C6 counterexample: a leading data line carrying only a frequency
(zero values) never sets the reference count, so a following line
with two values — a count differing from the first data line's count
of zero — parses successfully, contradicting the claim that a
differing value count always fails. -/
theorem touchstone_zero_count_line_counterexample :
    loads .ri 1 [(1, []), (2, [5, 7])] =
      .ok ⟨2, 2, { s11 := [⟨2, 5, 7⟩] }⟩ ∧
    ([] : List Rat).length ≠ [(5 : Rat), 7].length := by
  constructor
  · norm_num [loads, loadsAux, processLine, appendRI, slotAppend]
  · decide

/-- Helper: when every attempt up to the fuel bound fails validation,
the retry loop raises the device-IO error. -/
theorem readDataGo_all_fail (device : Nat → List (Rat × Rat)) (validate : Bool) :
    ∀ r attempt, (∀ k, k < r → attemptOk validate (device (attempt + k)) = false) →
      readDataGo device validate attempt r = .error .ioError := by
  intro r
  induction r with
  | zero => intro attempt _; rfl
  | succ n ih =>
    intro attempt h
    have h0 : attemptOk validate (device attempt) = false := by
      simpa using h 0 (Nat.succ_pos n)
    rw [readDataGo, h0]
    simp only [Bool.false_eq_true, if_false]
    split
    · rfl
    · exact ih (attempt + 1) (fun k hk => by
        simpa [Nat.add_assoc, Nat.add_comm 1 k] using h (k + 1) (by omega))

/-- Helper: if the first `r` attempts fail validation and attempt `r`
passes, the retry loop returns attempt `r`'s values, provided `r` is
below the fuel bound. -/
theorem readDataGo_first_ok (device : Nat → List (Rat × Rat)) (validate : Bool) :
    ∀ r m attempt, r < m →
      (∀ k, k < r → attemptOk validate (device (attempt + k)) = false) →
      attemptOk validate (device (attempt + r)) = true →
      readDataGo device validate attempt m = .ok (device (attempt + r)) := by
  intro r
  induction r with
  | zero =>
    intro m attempt hm _ hok
    obtain ⟨m', rfl⟩ : ∃ m', m = m' + 1 := ⟨m - 1, by omega⟩
    rw [Nat.add_zero] at hok
    rw [readDataGo]
    simp [hok]
  | succ n ih =>
    intro m attempt hm hfail hok
    obtain ⟨m', rfl⟩ : ∃ m', m = m' + 1 := ⟨m - 1, by omega⟩
    have h0 : attemptOk validate (device attempt) = false := by
      simpa using hfail 0 (Nat.succ_pos n)
    rw [readDataGo, h0]
    simp only [Bool.false_eq_true, if_false]
    have hm' : n < m' := by omega
    rw [if_neg (by omega)]
    have := ih m' (attempt + 1) hm'
      (fun k hk => by
        simpa [Nat.add_assoc, Nat.add_comm 1 k] using hfail (k + 1) (by omega))
      (by simpa [Nat.add_assoc, Nat.add_comm 1 n] using hok)
    simpa [Nat.add_assoc, Nat.add_comm 1 n] using this

/-- C8: with validation enabled a pair with any component of absolute
value above 9.5 fails the attempt (forcing a re-read of the whole
channel); a device failing the first nine attempts and passing on the
tenth makes `readData` return the tenth attempt's values; ten
consecutive failures raise the fatal device-IO error. -/
theorem readData_retry_behavior (device : Nat → List (Rat × Rat)) :
    (∀ vals : List (Rat × Rat),
      (∃ p ∈ vals, |p.1| > 19/2 ∨ |p.2| > 19/2) → attemptOk true vals = false) ∧
    ((∀ k, k < 9 → attemptOk true (device k) = false) →
      attemptOk true (device 9) = true →
      readData device true = .ok (device 9)) ∧
    ((∀ k, k < 10 → attemptOk true (device k) = false) →
      readData device true = .error .ioError) := by
  refine ⟨?_, ?_, ?_⟩
  · rintro vals ⟨p, hp, hbig⟩
    have : vals.any (fun q => decide (|q.1| > 19/2) || decide (|q.2| > 19/2)) = true :=
      List.any_eq_true.2 ⟨p, hp, by rcases hbig with h | h <;> simp [h]⟩
    simp [attemptOk, this]
  · intro hfail hok
    have := readDataGo_first_ok device true 9 10 0 (by omega)
      (fun k hk => by simpa using hfail k hk) (by simpa using hok)
    simpa using this
  · intro hfail
    exact readDataGo_all_fail device true 10 0
      (fun k hk => by simpa using hfail k hk)

/-- Witness for C8 on the two concrete device models: `flaky9Device`
fails validation nine times (its pairs contain 10, above 9.5) and
returns `(1/2, 0)` on the tenth attempt; `alwaysBadDevice` fails
every attempt and `readData` raises the device-IO error. -/
theorem readData_retry_behavior_witness :
    (∀ k, k < 9 → attemptOk true (flaky9Device k) = false) ∧
    attemptOk true (flaky9Device 9) = true ∧
    readData flaky9Device true = .ok (flaky9Device 9) ∧
    (∀ k, k < 10 → attemptOk true (alwaysBadDevice k) = false) ∧
    readData alwaysBadDevice true = .error .ioError := by
  have hbad : attemptOk true [((10 : Rat), (0 : Rat))] = false := by
    norm_num [attemptOk]
  have hf : ∀ k, k < 9 → attemptOk true (flaky9Device k) = false := by
    intro k hk; rw [flaky9Device, if_pos hk]; exact hbad
  have hok : attemptOk true (flaky9Device 9) = true := by
    rw [flaky9Device, if_neg (by omega)]
    have habs : |(1 : Rat)/2| = 1/2 := abs_of_nonneg (by norm_num)
    norm_num [attemptOk, habs]
  have ha : ∀ k, k < 10 → attemptOk true (alwaysBadDevice k) = false := by
    intro k _; exact hbad
  exact ⟨hf, hok, (readData_retry_behavior flaky9Device).2.1 hf hok,
    ha, (readData_retry_behavior alwaysBadDevice).2.2 ha⟩

/-- Unfolding lemma for complex addition. -/
@[simp] theorem Cplx.add_def (x y : Cplx) : x + y = ⟨x.re + y.re, x.im + y.im⟩ := rfl

/-- Unfolding lemma for complex subtraction. -/
@[simp] theorem Cplx.sub_def (x y : Cplx) : x - y = ⟨x.re - y.re, x.im - y.im⟩ := rfl

/-- Unfolding lemma for complex negation. -/
@[simp] theorem Cplx.neg_def (x : Cplx) : -x = ⟨-x.re, -x.im⟩ := rfl

/-- Unfolding lemma for complex multiplication. -/
@[simp] theorem Cplx.mul_def (x y : Cplx) :
    x * y = ⟨x.re * y.re - x.im * y.im, x.re * y.im + x.im * y.re⟩ := rfl

/-- Unfolding lemma for complex division. -/
@[simp] theorem Cplx.div_def (x y : Cplx) :
    x / y = ⟨(x.re * y.re + x.im * y.im) / Cplx.normSq y,
             (x.im * y.re - x.re * y.im) / Cplx.normSq y⟩ := rfl

namespace Calibration

/-- `exceptMap` succeeds with one output row per input index. -/
theorem exceptMap_ok_length {f : Nat → Except CalError Row} :
    ∀ {l : List Nat} {rows : List Row},
      exceptMap f l = .ok rows → rows.length = l.length := by
  intro l
  induction l with
  | nil => intro rows h; cases h; rfl
  | cons a l ih =>
    intro rows h
    rw [exceptMap] at h
    cases hfa : f a with
    | error e => rw [hfa] at h; cases h
    | ok r =>
      rw [hfa] at h
      cases hrest : exceptMap f l with
      | error e => rw [hrest] at h; cases h
      | ok rs => rw [hrest] at h; cases h; simp [ih hrest]

/-- Every row produced by `exceptMap` comes from some input index. -/
theorem exceptMap_ok_mem {f : Nat → Except CalError Row} :
    ∀ {l : List Nat} {rows : List Row},
      exceptMap f l = .ok rows → ∀ r ∈ rows, ∃ a ∈ l, f a = .ok r := by
  intro l
  induction l with
  | nil => intro rows h; cases h; intro r hr; cases hr
  | cons a l ih =>
    intro rows h
    rw [exceptMap] at h
    cases hfa : f a with
    | error e => rw [hfa] at h; cases h
    | ok r0 =>
      rw [hfa] at h
      cases hrest : exceptMap f l with
      | error e => rw [hrest] at h; cases h
      | ok rs =>
        rw [hrest] at h
        cases h
        intro r hr
        rcases List.mem_cons.1 hr with rfl | hr
        · exact ⟨a, List.mem_cons_self a l, hfa⟩
        · obtain ⟨b, hb, hfb⟩ := ih hrest r hr
          exact ⟨b, List.mem_cons_of_mem a hb, hfb⟩

/-- The nearest-neighbor scan either keeps its incoming best index or
returns an index of a scanned element. -/
theorem nearestScan_cases (freq : Rat) :
    ∀ (pts : List Datapoint) (i best : Nat) (dist : Rat),
      nearestScan freq pts i best dist = best ∨
        (i ≤ nearestScan freq pts i best dist ∧
          nearestScan freq pts i best dist < i + pts.length) := by
  intro pts
  induction pts with
  | nil => intro i best dist; left; rfl
  | cons p rest ih =>
    intro i best dist
    rw [nearestScan]
    split
    · rcases ih (i + 1) i |p.freq - freq| with h | ⟨h1, h2⟩
      · right
        rw [h]
        simp only [List.length_cons]
        omega
      · right
        simp only [List.length_cons]
        omega
    · rcases ih (i + 1) best dist with h | ⟨h1, h2⟩
      · left; exact h
      · right
        simp only [List.length_cons]
        omega

/-- On a nonempty standard list the nearest index is in bounds. -/
theorem nearestIndex_lt {pts : List Datapoint} (h : pts ≠ []) (freq : Rat) :
    nearestIndex pts freq < pts.length := by
  have hlen : 0 < pts.length := List.length_pos.2 h
  rcases nearestScan_cases freq pts 0 0 (10 ^ 10) with h0 | ⟨_, h2⟩
  · rw [nearestIndex, h0]; exact hlen
  · rw [nearestIndex]; simpa using h2

/-- The error-term arithmetic at ideal, self-consistent standards:
`g1 = gm1 = -1`, `g2 = gm2 = 1`, `g3 = gm3 = 0` gives `e00 = 0`,
`e11 = 0`, `deltaE = -1`. -/
theorem calcOne_ideal :
    calcOne shortIdeal openIdeal loadIdeal ⟨-1, 0⟩ ⟨1, 0⟩ ⟨0, 0⟩ =
      .ok (Cplx.zero, Cplx.zero, ⟨-1, 0⟩) := by
  rw [calcOne]
  norm_num [shortIdeal, openIdeal, loadIdeal, Cplx.zero, Cplx.normSq]

/-- Under ideal standard models and measurements equal to the ideal
responses, every row `calculateCorrections` produces carries
`e00 = 0`, `e11 = 0`, `deltaE = -1`. -/
theorem calcRow_ideal {c : Calibration}
    (hS : c.useIdealShort = true) (hO : c.useIdealOpen = true)
    (hL : c.useIdealLoad = true)
    (hmS : ∀ dp ∈ c.s11short, dp.re = -1 ∧ dp.im = 0)
    (hmO : ∀ dp ∈ c.s11open, dp.re = 1 ∧ dp.im = 0)
    (hmL : ∀ dp ∈ c.s11load, dp.re = 0 ∧ dp.im = 0)
    {i : Nat} {r : Row} (h : calcRow c i = .ok r) :
    r.rE00 = Cplx.zero ∧ r.rE11 = Cplx.zero ∧ r.rDeltaE = ⟨-1, 0⟩ := by
  cases hsh : c.s11short[i]? with
  | none => simp only [calcRow, hsh] at h; exact Except.noConfusion h
  | some sh =>
  cases hop : c.s11open[i]? with
  | none => simp only [calcRow, hsh, hop] at h; exact Except.noConfusion h
  | some op =>
  cases hlo : c.s11load[i]? with
  | none => simp only [calcRow, hsh, hop, hlo] at h; exact Except.noConfusion h
  | some lo =>
  simp only [calcRow, hsh, hop, hlo, modeledShortG, modeledOpenG, modeledLoadG,
    hS, hO, hL, if_true] at h
  have hshm := hmS sh (List.getElem?_mem hsh)
  have hopm := hmO op (List.getElem?_mem hop)
  have hlom := hmL lo (List.getElem?_mem hlo)
  rw [hshm.1, hshm.2, hopm.1, hopm.2, hlom.1, hlom.2] at h
  simp only [calcOne_ideal] at h
  by_cases h2 : c.isValid2Port = true
  · simp only [h2, if_true] at h
    cases hth : c.s21through[i]? with
    | none => simp only [hth] at h; exact Except.noConfusion h
    | some th =>
    cases hiso : c.s21isolation[i]? with
    | none => simp only [hth, hiso] at h; exact Except.noConfusion h
    | some iso =>
    simp only [hth, hiso] at h
    cases h
    exact ⟨rfl, rfl, rfl⟩
  · rw [Bool.not_eq_true] at h2
    simp only [h2, Bool.false_eq_true, if_false] at h
    cases h
    exact ⟨rfl, rfl, rfl⟩

end Calibration

/-- `correct11` is the identity whenever every computed error term is
the ideal triple `e00 = 0`, `e11 = 0`, `deltaE = -1` (whatever index
the nearest-frequency scan selects). -/
theorem correct11_of_ideal_terms (c2 : Calibration) (re im freq : Rat)
    (hne : c2.s11short ≠ [])
    (hl00 : c2.e00.length = c2.s11short.length)
    (hl11 : c2.e11.length = c2.s11short.length)
    (hlDE : c2.deltaE.length = c2.s11short.length)
    (h00 : ∀ x ∈ c2.e00, x = Cplx.zero)
    (h11 : ∀ x ∈ c2.e11, x = Cplx.zero)
    (hDE : ∀ x ∈ c2.deltaE, x = (⟨-1, 0⟩ : Cplx)) :
    Calibration.correct11 c2 re im freq = .ok (re, im) := by
  have hidx : Calibration.nearestIndex c2.s11short freq < c2.s11short.length :=
    Calibration.nearestIndex_lt hne freq
  have e1 : c2.e00[Calibration.nearestIndex c2.s11short freq]? = some Cplx.zero := by
    rw [List.getElem?_eq_getElem (by omega)]
    exact congrArg some (h00 _ (List.getElem_mem _))
  have e2 : c2.e11[Calibration.nearestIndex c2.s11short freq]? = some Cplx.zero := by
    rw [List.getElem?_eq_getElem (by omega)]
    exact congrArg some (h11 _ (List.getElem_mem _))
  have e3 : c2.deltaE[Calibration.nearestIndex c2.s11short freq]? =
      some (⟨-1, 0⟩ : Cplx) := by
    rw [List.getElem?_eq_getElem (by omega)]
    exact congrArg some (hDE _ (List.getElem_mem _))
  simp only [Calibration.correct11, e1, e2, e3]
  have hden : (⟨re, im⟩ : Cplx) * Cplx.zero - (⟨-1, 0⟩ : Cplx) = Cplx.one := by
    simp [Cplx.zero, Cplx.one]
  rw [hden, if_neg (by simp [Cplx.one, Cplx.zero])]
  simp [Cplx.zero, Cplx.one, Cplx.normSq]

/-- C1: with all three standards on their ideal models and every
measured standard value equal to its modeled value, a successful
`calculateCorrections()` yields error terms making `correct11` the
identity: any sample `(re, im)` at any frequency is returned
unchanged. -/
theorem calibration_ideal_identity (c c' : Calibration) (re im freq : Rat)
    (hS : c.useIdealShort = true) (hO : c.useIdealOpen = true)
    (hL : c.useIdealLoad = true)
    (hmS : ∀ dp ∈ c.s11short, dp.re = -1 ∧ dp.im = 0)
    (hmO : ∀ dp ∈ c.s11open, dp.re = 1 ∧ dp.im = 0)
    (hmL : ∀ dp ∈ c.s11load, dp.re = 0 ∧ dp.im = 0)
    (hcalc : Calibration.calculateCorrections c = .ok c') :
    Calibration.correct11 c' re im freq = .ok (re, im) := by
  rw [Calibration.calculateCorrections] at hcalc
  split at hcalc
  case isFalse => exact Except.noConfusion hcalc
  case isTrue hv =>
  cases hrows : Calibration.exceptMap (Calibration.calcRow c)
      (List.range c.s11short.length) with
  | error e => rw [hrows] at hcalc; exact Except.noConfusion hcalc
  | ok rows =>
  rw [hrows] at hcalc
  rw [Except.ok.injEq] at hcalc
  subst hcalc
  have hn : 0 < c.s11short.length := by
    simp only [Calibration.isValid1Port, Bool.and_eq_true, decide_eq_true_eq] at hv
    exact hv.1.1
  have hne : c.s11short ≠ [] := List.length_pos.1 hn
  have hlenrows : rows.length = c.s11short.length := by
    have := Calibration.exceptMap_ok_length hrows
    simpa using this
  have hrowsP : ∀ r ∈ rows,
      r.rE00 = Cplx.zero ∧ r.rE11 = Cplx.zero ∧ r.rDeltaE = (⟨-1, 0⟩ : Cplx) := by
    intro r hr
    obtain ⟨a, _, hfa⟩ := Calibration.exceptMap_ok_mem hrows r hr
    exact Calibration.calcRow_ideal hS hO hL hmS hmO hmL hfa
  refine correct11_of_ideal_terms _ re im freq hne ?_ ?_ ?_ ?_ ?_ ?_
  · simpa using hlenrows
  · simpa using hlenrows
  · simpa using hlenrows
  · intro x hx
    obtain ⟨r, hr, rfl⟩ := List.mem_map.1 hx
    exact (hrowsP r hr).1
  · intro x hx
    obtain ⟨r, hr, rfl⟩ := List.mem_map.1 hx
    exact (hrowsP r hr).2.1
  · intro x hx
    obtain ⟨r, hr, rfl⟩ := List.mem_map.1 hx
    exact (hrowsP r hr).2.2

/-- Witness for C1: the one-point ideal calibration `idealCal`
satisfies every hypothesis, `calculateCorrections` succeeds producing
`idealCalDone`, and `correct11` returns the sample `(1/3, 2/5)`
unchanged. -/
theorem calibration_ideal_identity_witness :
    (idealCal.useIdealShort = true ∧ idealCal.useIdealOpen = true ∧
      idealCal.useIdealLoad = true ∧
      (∀ dp ∈ idealCal.s11short, dp.re = -1 ∧ dp.im = 0) ∧
      (∀ dp ∈ idealCal.s11open, dp.re = 1 ∧ dp.im = 0) ∧
      (∀ dp ∈ idealCal.s11load, dp.re = 0 ∧ dp.im = 0) ∧
      Calibration.calculateCorrections idealCal = .ok idealCalDone) ∧
    Calibration.correct11 idealCalDone (1/3) (2/5) 250 = .ok (1/3, 2/5) := by
  have hS : idealCal.useIdealShort = true := rfl
  have hO : idealCal.useIdealOpen = true := rfl
  have hL : idealCal.useIdealLoad = true := rfl
  have hmS : ∀ dp ∈ idealCal.s11short, dp.re = -1 ∧ dp.im = 0 := by
    intro dp h
    simp only [idealCal, List.mem_singleton] at h
    subst h
    exact ⟨rfl, rfl⟩
  have hmO : ∀ dp ∈ idealCal.s11open, dp.re = 1 ∧ dp.im = 0 := by
    intro dp h
    simp only [idealCal, List.mem_singleton] at h
    subst h
    exact ⟨rfl, rfl⟩
  have hmL : ∀ dp ∈ idealCal.s11load, dp.re = 0 ∧ dp.im = 0 := by
    intro dp h
    simp only [idealCal, List.mem_singleton] at h
    subst h
    exact ⟨rfl, rfl⟩
  have hcalc : Calibration.calculateCorrections idealCal = .ok idealCalDone := by
    norm_num [Calibration.calculateCorrections, idealCal, idealCalDone,
      Calibration.isValid1Port, Calibration.isValid2Port, Calibration.exceptMap,
      Calibration.calcRow, Calibration.calcOne, Calibration.modeledShortG,
      Calibration.modeledOpenG, Calibration.modeledLoadG, shortIdeal, openIdeal,
      loadIdeal, Cplx.zero, Cplx.one, List.range_succ, Cplx.normSq]
  exact ⟨⟨hS, hO, hL, hmS, hmO, hmL, hcalc⟩,
    calibration_ideal_identity idealCal idealCalDone (1/3) (2/5) 250
      hS hO hL hmS hmO hmL hcalc⟩

/-- Stable insertion produces a permutation of consing. -/
theorem insertSorted_perm (key : Cplx → Rat) (x : Cplx) :
    ∀ l : List Cplx, (insertSorted key x l).Perm (x :: l) := by
  intro l
  induction l with
  | nil => exact List.Perm.refl _
  | cons y ys ih =>
    rw [insertSorted]
    split
    · exact List.Perm.refl _
    · exact (ih.cons y).trans (List.Perm.swap x y ys)

/-- The stable sort permutes its input. -/
theorem sortByKey_perm (key : Cplx → Rat) :
    ∀ l : List Cplx, (sortByKey key l).Perm l := by
  intro l
  induction l with
  | nil => exact List.Perm.refl _
  | cons x xs ih =>
    exact (insertSorted_perm key x (sortByKey key xs)).trans (ih.cons x)

/-- Stable insertion preserves sortedness by the key. -/
theorem insertSorted_pairwise (key : Cplx → Rat) (x : Cplx) :
    ∀ l : List Cplx, List.Pairwise (fun a b => key a ≤ key b) l →
      List.Pairwise (fun a b => key a ≤ key b) (insertSorted key x l) := by
  intro l
  induction l with
  | nil => intro _; simp [insertSorted]
  | cons y ys ih =>
    intro h
    rw [List.pairwise_cons] at h
    obtain ⟨hy, hys⟩ := h
    rw [insertSorted]
    by_cases hc : key x ≤ key y
    · rw [if_pos hc, List.pairwise_cons]
      refine ⟨?_, List.pairwise_cons.2 ⟨hy, hys⟩⟩
      intro z hz
      rcases List.mem_cons.1 hz with rfl | hz
      · exact hc
      · exact le_trans hc (hy z hz)
    · rw [if_neg hc, List.pairwise_cons]
      refine ⟨?_, ih hys⟩
      intro z hz
      have hz' : z ∈ x :: ys := (insertSorted_perm key x ys).mem_iff.1 hz
      rcases List.mem_cons.1 hz' with rfl | hz'
      · exact le_of_not_le hc
      · exact hy z hz'

/-- The stable sort is sorted by the key. -/
theorem sortByKey_pairwise (key : Cplx → Rat) :
    ∀ l : List Cplx,
      List.Pairwise (fun a b => key a ≤ key b) (sortByKey key l) := by
  intro l
  induction l with
  | nil => simp [sortByKey]
  | cons x xs ih => exact insertSorted_pairwise key x _ ih

/-- Reading every position of a row back in order reproduces it. -/
theorem range_map_getD (row : List Cplx) (d : Cplx) :
    (List.range row.length).map (fun j => row.getD j d) = row := by
  apply List.ext_getElem
  · simp
  · intro i h1 h2
    simp [List.getD_eq_getElem?_getD, List.getElem?_eq_getElem h2]

/-- `np.swapaxes(-, 0, 1)` is an involution on rectangular
nonempty-row data. -/
theorem swapaxes01_swapaxes01 (mm : List (List Cplx)) (k : Nat) (hk : 0 < k)
    (hrect : ∀ row ∈ mm, row.length = k) :
    swapaxes01 (swapaxes01 mm) = mm := by
  cases mm with
  | nil => rfl
  | cons r0 rest =>
    have h0 : r0.length = k := hrect r0 (List.mem_cons_self r0 rest)
    have hB : swapaxes01 (r0 :: rest) =
        (List.range k).map
          (fun j => (r0 :: rest).map (fun row => row.getD j Cplx.zero)) := by
      rw [swapaxes01]
      simp [h0]
    obtain ⟨k', rfl⟩ : ∃ k', k = k' + 1 := ⟨k - 1, by omega⟩
    have hhead : ((swapaxes01 (r0 :: rest)).headD []).length = (r0 :: rest).length := by
      rw [hB, List.range_succ_eq_map]
      simp
    rw [swapaxes01, hhead]
    apply List.ext_getElem
    · simp
    · intro i hi1 hi2
      rw [List.getElem_map, List.getElem_range, hB, List.map_map]
      have hri : ∀ j ∈ List.range (k' + 1),
          ((fun row => row.getD i Cplx.zero) ∘
            fun j => (r0 :: rest).map (fun row => row.getD j Cplx.zero)) j =
          ((r0 :: rest)[i]).getD j Cplx.zero := by
        intro j _
        show ((r0 :: rest).map (fun row => row.getD j Cplx.zero)).getD i
            Cplx.zero = _
        rw [List.getD_eq_getElem?_getD, List.getElem?_map,
          List.getElem?_eq_getElem hi2]
        rfl
      rw [List.map_congr_left hri]
      have hlen : ((r0 :: rest)[i]).length = k' + 1 :=
        hrect _ (List.getElem_mem _)
      rw [show k' + 1 = ((r0 :: rest)[i]).length from hlen.symm]
      exact range_map_getD _ _

/-- C4: trimmed averaging.  For `n` repeated sweeps per bin with
`0 < truncates < n`, the per-bin result of
`readAveragedSegment`'s post-processing is the arithmetic mean of
`n - truncates` samples that are closest (by distance from the
arithmetic mean of all `n` samples — compared here by squared
modulus, which induces the same order as the modulus itself) to that
mean: every kept sample is at most as distant as every discarded
one. -/
theorem truncated_average_closest_mean (vals : List (List Cplx)) (n m : Nat)
    (t : Int) (j : Nat) (hn : vals.length = n)
    (hrect : ∀ row ∈ vals, row.length = m)
    (ht0 : 0 < t) (htn : t < (n : Int)) (hj : j < m) :
    ∃ kept dropped : List Cplx,
      kept.length = ((n : Int) - t).toNat ∧
      (kept ++ dropped).Perm (colAt vals j) ∧
      (∀ x ∈ kept, ∀ y ∈ dropped,
        distKey (cmean (colAt vals j)) x ≤ distKey (cmean (colAt vals j)) y) ∧
      (readAveragedValues vals t)[j]? = some (cmean kept) := by
  have hn2 : 2 ≤ n := by omega
  have hguard : ¬(t < 1 ∨ (vals.length : Int) - t < 1) := by
    rw [hn]; push_neg; omega
  set keepN : Nat := ((n : Int) - t).toNat with hkeepN
  have hkeyfact : ((vals.length : Int) - t).toNat = keepN := by rw [hn]
  have hkeep1 : 1 ≤ keepN := by omega
  have hkeepn : keepN ≤ n := by omega
  have hhead : (vals.headD []).length = m := by
    cases vals with
    | nil => simp at hn; omega
    | cons v0 rest => exact hrect v0 (List.mem_cons_self v0 rest)
  have hswA : swapaxes01 vals = (List.range m).map (colAt vals) := by
    rw [swapaxes01, hhead]; rfl
  have hcollen : ∀ jx : Nat, (colAt vals jx).length = n := by
    intro jx; simp [colAt, hn]
  -- the per-column trimming function
  set f : List Cplx → List Cplx :=
    fun valueset => (sortByKey (distKey (cmean valueset)) valueset).take keepN
    with hf
  have htr : truncate vals t = swapaxes01 ((swapaxes01 vals).map f) := by
    rw [truncate]
    rw [if_neg hguard]
    rw [hkeyfact]
  have hflen : ∀ row ∈ (swapaxes01 vals).map f, row.length = keepN := by
    intro row hrow
    obtain ⟨col, hcol, rfl⟩ := List.mem_map.1 hrow
    obtain ⟨jx, _, rfl⟩ : ∃ jx ∈ List.range m, colAt vals jx = col := by
      rw [hswA] at hcol
      obtain ⟨jx, hjx, hc⟩ := List.mem_map.1 hcol
      exact ⟨jx, hjx, hc⟩
    rw [hf]
    simp only [List.length_take]
    rw [(sortByKey_perm _ _).length_eq, hcollen]
    omega
  have hinv : swapaxes01 (swapaxes01 ((swapaxes01 vals).map f)) =
      (swapaxes01 vals).map f :=
    swapaxes01_swapaxes01 _ keepN hkeep1 hflen
  have hres : readAveragedValues vals t = ((List.range m).map (colAt vals)).map
      (fun col => cmean (f col)) := by
    rw [readAveragedValues, htr, averageColumns, hinv, hswA, List.map_map]
    rfl
  refine ⟨(sortByKey (distKey (cmean (colAt vals j))) (colAt vals j)).take keepN,
    (sortByKey (distKey (cmean (colAt vals j))) (colAt vals j)).drop keepN,
    ?_, ?_, ?_, ?_⟩
  · simp only [List.length_take]
    rw [(sortByKey_perm _ _).length_eq, hcollen]
    omega
  · rw [List.take_append_drop]
    exact sortByKey_perm _ _
  · intro x hx y hy
    have hpw := sortByKey_pairwise (distKey (cmean (colAt vals j))) (colAt vals j)
    rw [← List.take_append_drop keepN
      (sortByKey (distKey (cmean (colAt vals j))) (colAt vals j))] at hpw
    exact (List.pairwise_append.1 hpw).2.2 x hx y hy
  · rw [hres, List.map_map]
    rw [List.getElem?_map, List.getElem?_range hj]
    rfl


/-- Witness for C4 at `n = 5`, `truncates = 1` with one extreme
outlier: the hypotheses hold, the characterization applies, and
concretely the result `1 + 0i` is the mean of the four
closest-to-mean samples and differs from the raw mean `104/5` of all
five samples. -/
theorem truncated_average_closest_mean_witness :
    (outlierVals.length = 5 ∧ (∀ row ∈ outlierVals, row.length = 1) ∧
      (0 : Int) < 1 ∧ (1 : Int) < (5 : Nat) ∧ 0 < 1) ∧
    (∃ kept dropped : List Cplx,
      kept.length = (((5 : Nat) : Int) - 1).toNat ∧
      (kept ++ dropped).Perm (colAt outlierVals 0) ∧
      (∀ x ∈ kept, ∀ y ∈ dropped,
        distKey (cmean (colAt outlierVals 0)) x ≤
          distKey (cmean (colAt outlierVals 0)) y) ∧
      (readAveragedValues outlierVals 1)[0]? = some (cmean kept)) ∧
    readAveragedValues outlierVals 1 = [⟨1, 0⟩] ∧
    cmean (colAt outlierVals 0) ≠ ⟨1, 0⟩ := by
  have hcol : colAt outlierVals 0 =
      [⟨1, 0⟩, ⟨1, 0⟩, ⟨1, 0⟩, ⟨1, 0⟩, ⟨100, 0⟩] := by
    norm_num [colAt, outlierVals]
  have hmean : cmean [(⟨1, 0⟩ : Cplx), ⟨1, 0⟩, ⟨1, 0⟩, ⟨1, 0⟩, ⟨100, 0⟩] =
      ⟨104/5, 0⟩ := by
    norm_num [cmean, csum, Cplx.zero]
  have hsort : sortByKey (distKey (⟨104/5, 0⟩ : Cplx))
      [⟨1, 0⟩, ⟨1, 0⟩, ⟨1, 0⟩, ⟨1, 0⟩, ⟨100, 0⟩] =
      [⟨1, 0⟩, ⟨1, 0⟩, ⟨1, 0⟩, ⟨1, 0⟩, ⟨100, 0⟩] := by
    norm_num [sortByKey, insertSorted, distKey, Cplx.normSq]
  have hsw : swapaxes01 outlierVals =
      [[⟨1, 0⟩, ⟨1, 0⟩, ⟨1, 0⟩, ⟨1, 0⟩, ⟨100, 0⟩]] := by
    norm_num [swapaxes01, outlierVals, List.range_succ]
  have h4 : ((outlierVals.length : Int) - 1).toNat = 4 := by
    norm_num [outlierVals]
    decide
  have htr : truncate outlierVals 1 = [[⟨1, 0⟩], [⟨1, 0⟩], [⟨1, 0⟩], [⟨1, 0⟩]] := by
    rw [truncate]
    rw [if_neg (by norm_num [outlierVals])]
    rw [h4, hsw]
    simp only [List.map_cons, List.map_nil]
    rw [hmean, hsort]
    norm_num [swapaxes01, List.range_succ]
  have hread : readAveragedValues outlierVals 1 = [⟨1, 0⟩] := by
    rw [readAveragedValues, htr, averageColumns]
    have : swapaxes01 [[(⟨1, 0⟩ : Cplx)], [⟨1, 0⟩], [⟨1, 0⟩], [⟨1, 0⟩]] =
        [[⟨1, 0⟩, ⟨1, 0⟩, ⟨1, 0⟩, ⟨1, 0⟩]] := by
      norm_num [swapaxes01, List.range_succ]
    rw [this]
    norm_num [cmean, csum, Cplx.zero]
  have hnem : cmean (colAt outlierVals 0) ≠ ⟨1, 0⟩ := by
    rw [hcol, hmean]
    norm_num [Cplx.mk.injEq]
  have hlen5 : outlierVals.length = 5 := by norm_num [outlierVals]
  have hrect1 : ∀ row ∈ outlierVals, row.length = 1 := by
    intro row h
    fin_cases h <;> rfl
  exact ⟨⟨hlen5, hrect1, by norm_num, by norm_num, by norm_num⟩,
    truncated_average_closest_mean outlierVals 5 1 1 0 hlen5 hrect1
      (by norm_num) (by norm_num) (by norm_num),
    hread, hnem⟩

/-- The `ri` decoding loop only ever raises `StopIteration`. -/
theorem appendRI_error_eq (freq : Rat) :
    ∀ (vs : List Rat) (k : Nat) (sd : SData) {e : TsErr},
      appendRI freq vs k sd = .error e → e = .stopIteration := by
  intro vs k sd
  induction vs, k, sd using appendRI.induct freq with
  | case1 k sd =>
    intro e h
    exact Except.noConfusion h
  | case2 v1 v2 rest k sd sd2 hsl ih =>
    intro e h
    simp only [appendRI, hsl] at h
    exact ih h
  | case3 v1 v2 rest k sd hsl =>
    intro e h
    simp only [appendRI, hsl] at h
    cases h
    rfl
  | case4 v k sd =>
    intro e h
    simp only [appendRI] at h
    cases h
    rfl

/-- A successful data line implies its head checks passed and fixes
the successor parser state. -/
theorem processLine_ok_inv {fmt : TsFormat} {factor : Rat} {st : LoadState}
    {line : Rat × List Rat} {st2 : LoadState}
    (h : processLine fmt factor st line = .ok st2) :
    st.prevFreq < line.1 * factor ∧ line.2.length % 2 = 0 ∧
    (st.prevLen = 0 ∨ line.2.length = st.prevLen) ∧
    st2.prevFreq = line.1 * factor ∧
    st2.prevLen = (if st.prevLen = 0 then line.2.length else st.prevLen) := by
  simp only [processLine] at h
  by_cases h1 : line.1 * factor ≤ st.prevFreq
  · rw [if_pos h1] at h
    exact Except.noConfusion h
  rw [if_neg h1] at h
  by_cases h2 : line.2.length % 2 = 1
  · rw [if_pos h2] at h
    exact Except.noConfusion h
  rw [if_neg h2] at h
  by_cases h3 : line.2.length ≠ (if st.prevLen = 0 then line.2.length else st.prevLen)
  · rw [if_pos h3] at h
    exact Except.noConfusion h
  rw [if_neg h3] at h
  push_neg at h3
  refine ⟨lt_of_not_le h1, by omega, ?_, ?_⟩
  · by_cases hz : st.prevLen = 0
    · exact Or.inl hz
    · rw [if_neg hz] at h3
      exact Or.inr h3
  · cases fmt with
    | ri =>
      cases happ : appendRI (line.1 * factor) line.2 0 st.sdata with
      | error e => rw [happ] at h; exact Except.noConfusion h
      | ok sd =>
        rw [happ] at h
        cases h
        exact ⟨rfl, rfl⟩
    | ma =>
      by_cases he : line.2.isEmpty = true
      · rw [if_pos he] at h
        cases h
        exact ⟨rfl, rfl⟩
      · rw [if_neg he] at h
        exact Except.noConfusion h
    | db =>
      cases h
      exact ⟨rfl, rfl⟩

/-- A data line whose head checks pass never raises a structural
error (it may still fail non-structurally, e.g. under `ma`). -/
theorem processLine_head_ok {fmt : TsFormat} {factor : Rat} {st : LoadState}
    {line : Rat × List Rat}
    (h1 : st.prevFreq < line.1 * factor) (h2 : line.2.length % 2 = 0)
    (h3 : st.prevLen = 0 ∨ line.2.length = st.prevLen) :
    ∀ e : TsErr, e.isStructural = true →
      processLine fmt factor st line ≠ .error e := by
  intro e he
  simp only [processLine]
  rw [if_neg (not_le.2 h1)]
  rw [if_neg (by omega)]
  have h3' : ¬line.2.length ≠ (if st.prevLen = 0 then line.2.length else st.prevLen) := by
    rcases h3 with hz | heq
    · rw [if_pos hz]
      exact fun hne => hne rfl
    · by_cases hz : st.prevLen = 0
      · rw [if_pos hz]
        exact fun hne => hne rfl
      · rw [if_neg hz]
        exact fun hne => hne heq
  rw [if_neg h3']
  cases fmt with
  | ri =>
    cases happ : appendRI (line.1 * factor) line.2 0 st.sdata with
    | error e2 =>
      intro hcontra
      have he2 : (Except.error e2 : Except TsErr LoadState) = .error e := hcontra
      cases he2
      have hs := appendRI_error_eq (line.1 * factor) line.2 0 st.sdata happ
      rw [hs] at he
      simp [TsErr.isStructural] at he
    | ok sd =>
      exact fun hcontra => Except.noConfusion hcontra
  | ma =>
    by_cases hemp : line.2.isEmpty = true
    · rw [if_pos hemp]
      exact fun hcontra => Except.noConfusion hcontra
    · rw [if_neg hemp]
      intro hcontra
      have hme : (Except.error TsErr.maPolarTypeError : Except TsErr LoadState) =
          .error e := hcontra
      cases hme
      simp [TsErr.isStructural] at he
  | db => exact fun hcontra => Except.noConfusion hcontra

/-- If the data-line loop succeeds, the scaled frequencies ascend
from the incoming `prev_freq` and the value counts satisfy the
reference-count discipline from the incoming `prev_len`. -/
theorem loadsAux_ok_structural (fmt : TsFormat) (factor : Rat) :
    ∀ (lines : List (Rat × List Rat)) (st st' : LoadState),
      loadsAux fmt factor st lines = .ok st' →
      ascendingFromB st.prevFreq (lines.map (fun l => l.1 * factor)) = true ∧
      countsOkB st.prevLen (lines.map (fun l => l.2.length)) = true := by
  intro lines
  induction lines with
  | nil => intro st st' _; exact ⟨rfl, rfl⟩
  | cons line rest ih =>
    intro st st' h
    rw [loadsAux] at h
    cases hp : processLine fmt factor st line with
    | error e => rw [hp] at h; exact Except.noConfusion h
    | ok st2 =>
      rw [hp] at h
      obtain ⟨hlt, hpar, hcons, hf2, hl2⟩ := processLine_ok_inv hp
      obtain ⟨ha, hc⟩ := ih st2 st' h
      constructor
      · simp only [List.map_cons, ascendingFromB, Bool.and_eq_true,
          decide_eq_true_eq]
        exact ⟨hlt, hf2 ▸ ha⟩
      · simp only [List.map_cons, countsOkB, Bool.and_eq_true, Bool.or_eq_true,
          decide_eq_true_eq]
        exact ⟨⟨hpar, hcons⟩, hl2 ▸ hc⟩

/-- Conversely, a line list satisfying both predicates never makes
the loop fail with a structural error. -/
theorem loadsAux_no_structural (fmt : TsFormat) (factor : Rat) :
    ∀ (lines : List (Rat × List Rat)) (st : LoadState),
      ascendingFromB st.prevFreq (lines.map (fun l => l.1 * factor)) = true →
      countsOkB st.prevLen (lines.map (fun l => l.2.length)) = true →
      ∀ e : TsErr, e.isStructural = true →
        loadsAux fmt factor st lines ≠ .error e := by
  intro lines
  induction lines with
  | nil => intro st _ _ e _ h; exact Except.noConfusion h
  | cons line rest ih =>
    intro st ha hc e he
    simp only [List.map_cons, ascendingFromB, Bool.and_eq_true,
      decide_eq_true_eq] at ha
    simp only [List.map_cons, countsOkB, Bool.and_eq_true, Bool.or_eq_true,
      decide_eq_true_eq] at hc
    rw [loadsAux]
    cases hp : processLine fmt factor st line with
    | error e2 =>
      intro h
      have h' : (Except.error e2 : Except TsErr LoadState) = .error e := h
      cases h'
      exact processLine_head_ok ha.1 hc.1.1 hc.1.2 e he hp
    | ok st2 =>
      obtain ⟨hlt, hpar, hcons, hf2, hl2⟩ := processLine_ok_inv hp
      exact ih st2 (by rw [hf2]; exact ha.2) (by rw [hl2]; exact hc.2) e he

/-- C6 amended: `loads` succeeds only on line lists whose scaled
frequencies are strictly ascending (from the initial `prev_freq = 0`)
and whose value counts are all even and equal to the reference count
— the count of the first data line with a *nonzero* count (a leading
bare-frequency line leaves the reference unset, the amendment the
counterexample forces); and a line list violating none of these never
fails with a structural parse error. -/
theorem touchstone_structural_validation (fmt : TsFormat) (factor : Rat)
    (lines : List (Rat × List Rat)) :
    (∀ st : LoadState, loads fmt factor lines = .ok st →
      structuralViolationFree factor lines = true) ∧
    (structuralViolationFree factor lines = true →
      ∀ e : TsErr, e.isStructural = true → loads fmt factor lines ≠ .error e) := by
  constructor
  · intro st h
    obtain ⟨h1, h2⟩ := loadsAux_ok_structural fmt factor lines {} st h
    rw [structuralViolationFree, Bool.and_eq_true]
    exact ⟨h1, h2⟩
  · intro hfree e he
    rw [structuralViolationFree, Bool.and_eq_true] at hfree
    exact loadsAux_no_structural fmt factor lines {} hfree.1 hfree.2 e he

/-- Witness for C6 on a concrete well-formed two-line file. -/
theorem touchstone_structural_validation_witness :
    structuralViolationFree 1 [(1, [5, 7]), (2, [8, 9])] = true ∧
    loads .ri 1 [(1, [5, 7]), (2, [8, 9])] ≠ .error .notAscending := by
  have hfree : structuralViolationFree 1 [(1, [5, 7]), (2, [8, 9])] = true := by
    norm_num [structuralViolationFree, ascendingFromB, countsOkB]
  exact ⟨hfree,
    (touchstone_structural_validation .ri 1 [(1, [5, 7]), (2, [8, 9])]).2
      hfree .notAscending rfl⟩
